import Mathlib

/-!
Verification development for the A/B Index Optimizer's optimization job
engine.  JavaScript source files are shallowly embedded: strings become
`List Char`, JS numbers become `ℚ`, thrown exceptions become `Except`
errors, and the asynchronous orchestrator becomes a pure interpreter over
an environment recording the outcome of every awaited collaborator call.
-/

deriving instance DecidableEq for Except

set_option synthInstance.maxSize 512

namespace ABOpt

/-- Strings are modelled as lists of characters. -/
abbrev Str := List Char

/-- Embed a Lean string literal. -/
def str (s : String) : Str := s.toList

/-- JS `\w` / the identifier character class `[A-Za-z0-9_]`. -/
def isWordChar (c : Char) : Bool := c.isAlpha || c.isDigit || c = '_'

/-- JS `\s` whitespace class (the members that can occur in our inputs). -/
def jsWs (c : Char) : Bool :=
  c = ' ' || c = '\t' || c = '\n' || c = '\r' || c = '\x0b' || c = '\x0c'

/-- JS `toLowerCase` on ASCII text. -/
def toLowerS (s : Str) : Str := s.map Char.toLower

/-- JS `toUpperCase` on ASCII text. -/
def toUpperS (s : Str) : Str := s.map Char.toUpper

/-- JS `String.prototype.trim`. -/
def trimS (s : Str) : Str :=
  ((s.dropWhile jsWs).reverse.dropWhile jsWs).reverse

/-! ## Identifier sanitization

`IndexTunerAgent.sanitizeIdentifier` (src/server/agents/index-tuner.js) and
`ValidatorAgent.sanitizeIdentifier` (src/server/agents/validator.js).  Both
strip characters outside `[A-Za-z0-9_]` and reject empty or digit-leading
results; only the tuner additionally rejects reserved keywords. -/

/-- The reserved keyword list of `IndexTunerAgent.sanitizeIdentifier`. -/
def reservedKeywords : List Str :=
  [str "SELECT", str "INSERT", str "UPDATE", str "DELETE", str "DROP",
   str "CREATE", str "ALTER", str "TABLE", str "DATABASE"]

/-- `/^[0-9]/.test(s)`. -/
def startsWithDigit (s : Str) : Bool :=
  match s with
  | [] => false
  | c :: _ => c.isDigit

/-- `IndexTunerAgent.sanitizeIdentifier`: strip characters outside
`[A-Za-z0-9_]`, then throw if the result starts with a digit, is a reserved
keyword (case-insensitively), or is empty. -/
def tunerSanitizeIdentifier (identifier : Str) : Except Str Str :=
  if identifier = [] then .error (str "Invalid identifier")
  else
    let sanitized := identifier.filter isWordChar
    if startsWithDigit sanitized then
      .error (str "Identifier cannot start with a number")
    else if reservedKeywords.contains (toUpperS sanitized) then
      .error (str "Cannot use SQL reserved keyword as identifier")
    else if sanitized = [] then
      .error (str "Identifier cannot be empty after sanitization")
    else .ok sanitized

/-- `ValidatorAgent.sanitizeIdentifier`: same stripping and the empty and
digit-leading checks, but no reserved-keyword check. -/
def validatorSanitizeIdentifier (identifier : Str) : Except Str Str :=
  if identifier = [] then .error (str "Invalid identifier")
  else
    let sanitized := identifier.filter isWordChar
    if startsWithDigit sanitized then
      .error (str "Identifier cannot start with a number")
    else if sanitized = [] then
      .error (str "Identifier cannot be empty after sanitization")
    else .ok sanitized

/-- The regex `^[A-Za-z_][A-Za-z0-9_]*$` from the spec's sanitization
contract. -/
def matchesIdentRegex (s : Str) : Bool :=
  match s with
  | [] => false
  | c :: cs => (c.isAlpha || c = '_') && cs.all isWordChar

/-- Case-insensitive membership in the reserved keyword set. -/
def isReserved (s : Str) : Bool := reservedKeywords.contains (toUpperS s)

/-! ## TigerService (src/server/services/tiger.js) -/

/-- A fork handle as returned by `TigerService.createFork`. -/
structure Fork where
  forkName : Str
  connectionString : Str
  isSimulated : Bool
deriving Repr, DecidableEq

/-- The service configuration: the base connection string from the
environment. -/
structure TigerConfig where
  baseConnectionString : Str

/-- `TigerService.createFork`: the demo implementation returns the main
database's connection string for every fork. -/
def createFork (cfg : TigerConfig) (forkName : Str) : Fork :=
  { forkName := forkName
    connectionString := cfg.baseConnectionString
    isSimulated := true }

/-- `TigerService.getForkConnectionString`: always the base connection
string. -/
def getForkConnectionString (cfg : TigerConfig) (_forkServiceId : Str) : Str :=
  cfg.baseConnectionString

/-! ## Query pattern analysis (IndexTunerAgent.analyzeQueries)

The JS regular expressions are embedded as dedicated scanners with the
engine's leftmost-match and backtracking order.  Greedy `\s+`/`\s*`/`\w+`
runs that are immediately followed by a character outside their own class
admit only the maximal run, so those are taken maximally; where a greedy
run is followed by `.`, the backtracking (longest first) is explicit. -/

/-!
The scanners below consume at least one character per step, so they recurse
structurally on a fuel argument initialized with the input's length; the
zero-fuel fallbacks are unreachable for that initialization.
-/

/-- `replace(/\s+/g, ' ')` worker: collapse each maximal whitespace run
into a single space. -/
def collapseWsF : ℕ → Str → Str
  | _, [] => []
  | 0, l => l
  | fuel + 1, c :: rest =>
    if jsWs c then ' ' :: collapseWsF fuel (rest.dropWhile jsWs)
    else c :: collapseWsF fuel rest

/-- `replace(/\s+/g, ' ')`. -/
def collapseWs (l : Str) : Str := collapseWsF l.length l

/-- `query.toLowerCase().replace(/\s+/g, ' ').trim()`. -/
def normalizeQuery (q : Str) : Str := trimS (collapseWs (toLowerS q))

/-- Match `\s+` followed by a literal (which must not start with
whitespace), returning the remainder after the literal. -/
def wsLit (lit : Str) (l : Str) : Option Str :=
  match l with
  | c :: rest =>
    if jsWs c then
      let r := rest.dropWhile jsWs
      if lit.isPrefixOf r then some (r.drop lit.length) else none
    else none
  | [] => none

/-- The boundary group `(?:\s+order\s+by|\s+group\s+by|\s+limit|$)` of the
WHERE-clause regex. -/
def boundaryWhere (l : Str) : Bool :=
  ((wsLit (str "order") l).bind (wsLit (str "by"))).isSome
  || ((wsLit (str "group") l).bind (wsLit (str "by"))).isSome
  || (wsLit (str "limit") l).isSome
  || l.isEmpty

/-- The boundary group `(?:\s+limit|$)` of the ORDER BY regex. -/
def boundaryOrder (l : Str) : Bool :=
  (wsLit (str "limit") l).isSome || l.isEmpty

/-- Lazy `(.+?)` up to a boundary: the shortest non-empty take whose
remainder satisfies the boundary. -/
def lazyCapture (b : Str → Bool) (l : Str) : Option Str :=
  (List.range l.length).findSome? fun c0 =>
    if b (l.drop (c0 + 1)) then some (l.take (c0 + 1)) else none

/-- Greedy `\s+` (longest run first, backtracking downwards) followed by a
lazy capture up to a boundary. -/
def wsThenLazyCapture (b : Str → Bool) (l : Str) : Option Str :=
  let k := (l.takeWhile jsWs).length
  (List.range k).findSome? fun d => lazyCapture b (l.drop (k - d))

/-- Leftmost match of `/where\s+(.+?)(?:\s+order\s+by|\s+group\s+by|\s+limit|$)/`,
returning the captured clause. -/
def findWhereClause : Str → Option Str
  | [] => none
  | l@(_ :: rest) =>
    if (str "where").isPrefixOf l then
      match wsThenLazyCapture boundaryWhere (l.drop 5) with
      | some cap => some cap
      | none => findWhereClause rest
    else findWhereClause rest

/-- Leftmost match of `/order\s+by\s+(.+?)(?:\s+limit|$)/`, returning the
captured clause. -/
def findOrderClause : Str → Option Str
  | [] => none
  | l@(_ :: rest) =>
    if (str "order").isPrefixOf l then
      match (wsLit (str "by") (l.drop 5)).bind (wsThenLazyCapture boundaryOrder) with
      | some cap => some cap
      | none => findOrderClause rest
    else findOrderClause rest

/-- `\s+` followed by a literal, returning the number of characters both
consumed together. -/
def wsLitLen (lit : Str) (l : Str) : Option ℕ :=
  match l with
  | c :: rest =>
    if jsWs c then
      let wsn := 1 + (rest.takeWhile jsWs).length
      if lit.isPrefixOf (l.drop wsn) then some (wsn + lit.length) else none
    else none
  | [] => none

/-- The boundary group `(?:\s+where|\s+order|\s+group|$)` of the JOIN
regex, with the number of characters it consumes. -/
def boundaryJoinLen (l : Str) : Option ℕ :=
  match wsLitLen (str "where") l with
  | some n => some n
  | none =>
    match wsLitLen (str "order") l with
    | some n => some n
    | none =>
      match wsLitLen (str "group") l with
      | some n => some n
      | none => if l.isEmpty then some 0 else none

/-- Match `/join\s+\w+\s+on\s+(.+?)(?:\s+where|\s+order|\s+group|$)/` at the
head of `l`, returning the total length of the full match. -/
def matchJoinAt (l : Str) : Option ℕ :=
  if (str "join").isPrefixOf l then
    let l1 := l.drop 4
    let w1 := (l1.takeWhile jsWs).length
    if w1 = 0 then none
    else
      let l2 := l1.drop w1
      let t := (l2.takeWhile isWordChar).length
      if t = 0 then none
      else
        let l3 := l2.drop t
        let w2 := (l3.takeWhile jsWs).length
        if w2 = 0 then none
        else
          let l4 := l3.drop w2
          if (str "on").isPrefixOf l4 then
            let l5 := l4.drop 2
            let k := (l5.takeWhile jsWs).length
            match (List.range k).findSome? (fun d =>
                let w := k - d
                let l6 := l5.drop w
                (List.range l6.length).findSome? fun c0 =>
                  (boundaryJoinLen (l6.drop (c0 + 1))).map
                    (fun bl => w + (c0 + 1) + bl)) with
            | some tailLen => some (4 + w1 + t + w2 + 2 + tailLen)
            | none => none
          else none
  else none

/-- `normalized.match(/join\s+\w+\s+on\s+.../g)`: the list of full matched
substrings, scanning left to right and resuming after each match.  (The
pattern cannot match the empty string; the `some 0` arm only keeps the
recursion total.) -/
def findJoinClausesF : ℕ → Str → List Str
  | _, [] => []
  | 0, _ => []
  | fuel + 1, c :: rest =>
    match matchJoinAt (c :: rest) with
    | some (n + 1) =>
      (c :: rest).take (n + 1) :: findJoinClausesF fuel ((c :: rest).drop (n + 1))
    | some 0 => [] :: findJoinClausesF fuel rest
    | none => findJoinClausesF fuel rest

/-- `normalized.match(/join\s+\w+\s+on\s+.../g)`. -/
def findJoinClauses (l : Str) : List Str := findJoinClausesF l.length l

/-- Operator class `[=<>!]`. -/
def isOpChar (c : Char) : Bool := c = '=' || c = '<' || c = '>' || c = '!'

/-- Global scan of `/(\w+)\s*[=<>!]/g`: captured identifiers, resuming
after each match's operator character. -/
def scanOpColsF : ℕ → Str → List Str
  | _, [] => []
  | 0, _ => []
  | fuel + 1, c :: rest =>
    let wn := ((c :: rest).takeWhile isWordChar).length
    if wn = 0 then scanOpColsF fuel rest
    else
      let sn := (((c :: rest).drop wn).takeWhile jsWs).length
      match (c :: rest).drop (wn + sn) with
      | o :: r2 =>
        if isOpChar o then (c :: rest).take wn :: scanOpColsF fuel r2
        else scanOpColsF fuel rest
      | [] => scanOpColsF fuel rest

/-- Global scan of `/(\w+)\s*[=<>!]/g`. -/
def scanOpCols (l : Str) : List Str := scanOpColsF l.length l

/-- Global scan of `/(\w+)\s+KW.../gi` for the keyword patterns `in` (which
additionally requires `\s*\(`), `like` and `between`: captured identifiers. -/
def scanKwColsF (kw : Str) (paren : Bool) : ℕ → Str → List Str
  | _, [] => []
  | 0, _ => []
  | fuel + 1, c :: rest =>
    let wn := ((c :: rest).takeWhile isWordChar).length
    if wn = 0 then scanKwColsF kw paren fuel rest
    else
      let sn := (((c :: rest).drop wn).takeWhile jsWs).length
      if sn = 0 then scanKwColsF kw paren fuel rest
      else if kw.isPrefixOf (toLowerS ((c :: rest).drop (wn + sn))) then
        if paren then
          let pn :=
            (((c :: rest).drop (wn + sn + kw.length)).takeWhile jsWs).length
          match (c :: rest).drop (wn + sn + kw.length + pn) with
          | '(' :: r => (c :: rest).take wn :: scanKwColsF kw paren fuel r
          | _ => scanKwColsF kw paren fuel rest
        else
          (c :: rest).take wn
            :: scanKwColsF kw paren fuel ((c :: rest).drop (wn + sn + kw.length))
      else scanKwColsF kw paren fuel rest

/-- Global scan of `/(\w+)\s+KW.../gi` for `in`/`like`/`between`. -/
def scanKwCols (kw : Str) (paren : Bool) (l : Str) : List Str :=
  scanKwColsF kw paren l.length l

/-- `[...new Set(columns)]`: deduplicate keeping first occurrences. -/
def insertUnique (l : List Str) (x : Str) : List Str :=
  if x ∈ l then l else l ++ [x]

/-- Fold a column list into a set-like list. -/
def dedupKeepFirst (xs : List Str) : List Str := xs.foldl insertUnique []

/-- `IndexTunerAgent.extractColumnsFromWhere`: the four operator patterns
in source order, then deduplication. -/
def extractColumnsFromWhere (wc : Str) : List Str :=
  dedupKeepFirst (scanOpCols wc ++ scanKwCols (str "in") true wc
    ++ scanKwCols (str "like") false wc ++ scanKwCols (str "between") false wc)

/-- JS `split(',')`. -/
def splitOnCommaAux : Str → Str → List Str
  | [], acc => [acc.reverse]
  | c :: rest, acc =>
    if c = ',' then acc.reverse :: splitOnCommaAux rest []
    else splitOnCommaAux rest (c :: acc)

/-- JS `split(',')` (always at least one segment). -/
def splitOnComma (s : Str) : List Str := splitOnCommaAux s []

/-- `col.trim().split(/\s+/)[0]`. -/
def firstTok (c : Str) : Str := (trimS c).takeWhile (fun ch => !jsWs ch)

/-- `IndexTunerAgent.extractColumnsFromOrderBy`. -/
def extractColumnsFromOrderBy (oc : Str) : List Str :=
  ((splitOnComma oc).map firstTok).filter
    (fun col => col ≠ [] ∧ toLowerS col ∉ [str "asc", str "desc"])

/-- Leftmost match of `/on\s+(.+)/`, returning the greedy capture. -/
def findOnCondition : Str → Option Str
  | [] => none
  | l@(_ :: rest) =>
    if (str "on").isPrefixOf l then
      let l1 := l.drop 2
      let k := (l1.takeWhile jsWs).length
      if k = 0 then findOnCondition rest
      else if l1.drop k ≠ [] then some (l1.drop k)
      else if 2 ≤ k then some (l1.drop (k - 1))
      else findOnCondition rest
    else findOnCondition rest

/-- Global scan of `/(\w+)\s*=\s*(\w+)/g`: the two identifier operands per
match (which is exactly what `split('=')` plus `trim()` recovers from the
full match). -/
def scanEqPairsF : ℕ → Str → List (Str × Str)
  | _, [] => []
  | 0, _ => []
  | fuel + 1, c :: rest =>
    let wn := ((c :: rest).takeWhile isWordChar).length
    if wn = 0 then scanEqPairsF fuel rest
    else
      let sn := (((c :: rest).drop wn).takeWhile jsWs).length
      match (c :: rest).drop (wn + sn) with
      | '=' :: r1 =>
        let tn := (r1.takeWhile jsWs).length
        let vn := ((r1.drop tn).takeWhile isWordChar).length
        if vn = 0 then scanEqPairsF fuel rest
        else
          ((c :: rest).take wn, (r1.drop tn).take vn)
            :: scanEqPairsF fuel ((r1.drop tn).drop vn)
      | _ => scanEqPairsF fuel rest

/-- Global scan of `/(\w+)\s*=\s*(\w+)/g`. -/
def scanEqPairs (l : Str) : List (Str × Str) := scanEqPairsF l.length l

/-- `IndexTunerAgent.extractColumnsFromJoin`: both operands of every
equality in the ON condition, in order. -/
def extractColumnsFromJoin (jc : Str) : List Str :=
  match findOnCondition jc with
  | none => []
  | some condition =>
    (scanEqPairs condition).foldr (fun p acc => p.1 :: p.2 :: acc) []

/-- The column-role sets of `IndexTunerAgent.analyzeQueries` (JS `Set`s,
insertion-ordered). -/
structure QueryPatterns where
  whereColumns : List Str
  orderByColumns : List Str
  joinColumns : List Str
deriving Repr, DecidableEq

/-- The analysis record returned by `IndexTunerAgent.analyzeQueries`. -/
structure Analysis where
  tableName : Str
  patterns : QueryPatterns
  queryCount : ℕ
  complexity : Str
deriving Repr, DecidableEq

/-- The per-query body of `IndexTunerAgent.analyzeQueries`. -/
def analyzeOne (p : QueryPatterns) (q : Str) : QueryPatterns :=
  let normalized := normalizeQuery q
  let p1 :=
    match findWhereClause normalized with
    | some wc =>
      { p with whereColumns :=
          (extractColumnsFromWhere wc).foldl insertUnique p.whereColumns }
    | none => p
  let p2 :=
    match findOrderClause normalized with
    | some oc =>
      { p1 with orderByColumns :=
          (extractColumnsFromOrderBy oc).foldl insertUnique p1.orderByColumns }
    | none => p1
  (findJoinClauses normalized).foldl
    (fun acc jc =>
      { acc with joinColumns :=
          (extractColumnsFromJoin jc).foldl insertUnique acc.joinColumns }) p2

/-- `IndexTunerAgent.assessComplexity`: weighted count with thresholds. -/
def assessComplexity (p : QueryPatterns) : Str :=
  let score : ℚ := p.whereColumns.length * 2
    + p.orderByColumns.length * (3 / 2) + p.joinColumns.length * 3
  if score < 5 then str "low"
  else if score < 15 then str "medium"
  else str "high"

/-- `IndexTunerAgent.analyzeQueries`. -/
def analyzeQueries (queries : List Str) (tableName : Str) : Analysis :=
  let patterns := queries.foldl analyzeOne ⟨[], [], []⟩
  ⟨tableName, patterns, queries.length, assessComplexity patterns⟩

/-! ## Strategy generation (IndexTunerAgent) -/

/-- A single proposed index, as generated by `IndexTunerAgent`. -/
structure IndexCandidate where
  iname : Str
  sql : Str
  itype : Str
  columns : List Str
  rationale : Str
deriving Repr, DecidableEq

/-- An index strategy, as generated by `IndexTunerAgent`. -/
structure Strategy where
  sname : Str
  description : Str
  indexes : List IndexCandidate
  estimatedSize : ℚ
  complexity : Str
deriving Repr, DecidableEq

/-- One single-column candidate of the Basic strategy. -/
def basicCandidate (t : Str) (c0 : Str) : Except Str IndexCandidate := do
  let c ← tunerSanitizeIdentifier c0
  .ok { iname := str "idx_" ++ t ++ str "_" ++ c
        sql := str "CREATE INDEX idx_" ++ t ++ str "_" ++ c ++ str " ON "
          ++ t ++ str " (" ++ c ++ str ");"
        itype := str "btree"
        columns := [c0]
        rationale := str "Single-column index for WHERE clause filtering on " ++ c0 }

/-- `IndexTunerAgent.generateBasicStrategy`: sanitize the table name, then
one single-column index per first-two WHERE columns. -/
def generateBasicStrategy (a : Analysis) : Except Str Strategy := do
  let t ← tunerSanitizeIdentifier a.tableName
  let indexes ← (a.patterns.whereColumns.take 2).mapM (basicCandidate t)
  .ok { sname := str "Basic Single-Column Strategy"
        description := str "Simple single-column B-tree indexes on most queried columns"
        indexes := indexes
        estimatedSize := indexes.length * 50
        complexity := str "low" }

/-- JS `join(', ')`. -/
def joinComma : List Str → Str
  | [] => []
  | [x] => x
  | x :: y :: xs => x ++ str ", " ++ joinComma (y :: xs)

/-- `IndexTunerAgent.generateAdvancedStrategy`: one composite candidate
when both WHERE and ORDER BY columns exist, plus one partial candidate when
any WHERE column exists. -/
def generateAdvancedStrategy (a : Analysis) : Except Str Strategy := do
  let t ← tunerSanitizeIdentifier a.tableName
  let whereColumns := a.patterns.whereColumns
  let orderColumns := a.patterns.orderByColumns
  let composite ←
    if whereColumns ≠ [] ∧ orderColumns ≠ [] then do
      let compositeColumns := whereColumns.take 2 ++ orderColumns.take 1
      let scols ← compositeColumns.mapM tunerSanitizeIdentifier
      pure [{ iname := str "idx_" ++ t ++ str "_composite"
              sql := str "CREATE INDEX idx_" ++ t ++ str "_composite ON "
                ++ t ++ str " (" ++ joinComma scols ++ str ");"
              itype := str "btree"
              columns := compositeColumns
              rationale := str "Composite index covering WHERE filtering and ORDER BY sorting" }]
    else pure []
  let partIdx ←
    if whereColumns ≠ [] then do
      let mainColumn := whereColumns.headD []
      let c ← tunerSanitizeIdentifier mainColumn
      pure [{ iname := str "idx_" ++ t ++ str "_" ++ c ++ str "_partial"
              sql := str "CREATE INDEX idx_" ++ t ++ str "_" ++ c
                ++ str "_partial ON " ++ t ++ str " (" ++ c ++ str ") WHERE "
                ++ c ++ str " IS NOT NULL;"
              itype := str "btree_partial"
              columns := [mainColumn]
              rationale := str "Partial index on " ++ mainColumn
                ++ str " excluding NULL values for better selectivity" }]
    else pure []
  let indexes := composite ++ partIdx
  .ok { sname := str "Advanced Composite Strategy"
        description := str "Optimized composite and partial indexes for complex query patterns"
        indexes := indexes
        estimatedSize := indexes.length * 75
        complexity := str "high" }

/-- The value returned by `IndexTunerAgent.generateIndexStrategies`. -/
structure Strategies where
  strategyA : Strategy
  strategyB : Strategy
  analysis : Analysis
deriving Repr, DecidableEq

/-- `IndexTunerAgent.generateIndexStrategies`. -/
def generateIndexStrategies (queries : List Str) (tableName : Str) :
    Except Str Strategies := do
  let analysis := analyzeQueries queries tableName
  let a ← generateBasicStrategy analysis
  let b ← generateAdvancedStrategy analysis
  .ok ⟨a, b, analysis⟩


/-! ## Plan trees and metrics (ValidatorAgent, src/server/agents/validator.js) -/

/-- A node of the plan tree returned by the measurement primitive: the
fields `ValidatorAgent` inspects, plus nested child plans. -/
inductive PlanNode where
  | mk (nodeType : Option Str) (sharedHitBlocks sharedReadBlocks : Option ℚ)
      (totalCost actualRows actualLoops : Option ℚ)
      (children : List PlanNode)

/-- Child plans of a node. -/
def PlanNode.children : PlanNode → List PlanNode
  | .mk _ _ _ _ _ _ cs => cs

/-- The node type, if present. -/
def PlanNode.nodeType : PlanNode → Option Str
  | .mk nt _ _ _ _ _ _ => nt

/-- Shared-buffer hit counter of this node. -/
def PlanNode.sharedHitBlocks : PlanNode → Option ℚ
  | .mk _ sh _ _ _ _ _ => sh

/-- Shared-buffer read counter of this node. -/
def PlanNode.sharedReadBlocks : PlanNode → Option ℚ
  | .mk _ _ sr _ _ _ _ => sr

/-- Total cost of the root node. -/
def PlanNode.totalCost : PlanNode → Option ℚ
  | .mk _ _ _ tc _ _ _ => tc

/-- Actual rows of the root node. -/
def PlanNode.actualRows : PlanNode → Option ℚ
  | .mk _ _ _ _ ar _ _ => ar

/-- Actual loops of the root node. -/
def PlanNode.actualLoops : PlanNode → Option ℚ
  | .mk _ _ _ _ _ al _ => al

/-- The running counters of `ValidatorAgent.extractPlanMetrics`. -/
structure PlanMetrics where
  totalCost : ℚ
  actualRows : ℚ
  actualLoops : ℚ
  indexScans : ℕ
  seqScans : ℕ
  bufferHits : ℚ
  bufferReads : ℚ
deriving Repr, DecidableEq

/-- JS `x || dflt` on an optional number: the default if the value is
missing or `0` (falsy). -/
def truthyOr (o : Option ℚ) (dflt : ℚ) : ℚ :=
  match o with
  | none => dflt
  | some v => if v = 0 then dflt else v

/-- One node's contribution in `ValidatorAgent.analyzePlanNode`: scan-kind
counters and truthiness-guarded buffer counters. -/
def bumpMetrics (n : PlanNode) (m : PlanMetrics) : PlanMetrics :=
  let m1 :=
    match n.nodeType with
    | some t =>
      if t = str "Index Scan" ∨ t = str "Index Only Scan" ∨
          t = str "Bitmap Index Scan" then
        { m with indexScans := m.indexScans + 1 }
      else if t = str "Seq Scan" then
        { m with seqScans := m.seqScans + 1 }
      else m
    | none => m
  let m2 :=
    match n.sharedHitBlocks with
    | some h => if h = 0 then m1 else { m1 with bufferHits := m1.bufferHits + h }
    | none => m1
  match n.sharedReadBlocks with
  | some r => if r = 0 then m2 else { m2 with bufferReads := m2.bufferReads + r }
  | none => m2

mutual

/-- `ValidatorAgent.analyzePlanNode`: fold this node's counters into the
metrics, then recurse over the child plans. -/
def analyzePlanNode : PlanNode → PlanMetrics → PlanMetrics
  | n@(.mk _ _ _ _ _ _ cs), m => analyzePlanList cs (bumpMetrics n m)
termination_by n _ => sizeOf n

/-- Left-to-right walk over a list of child plans. -/
def analyzePlanList : List PlanNode → PlanMetrics → PlanMetrics
  | [], m => m
  | c :: cs, m => analyzePlanList cs (analyzePlanNode c m)
termination_by ns _ => sizeOf ns

end

/-- `ValidatorAgent.extractPlanMetrics`. -/
def extractPlanMetrics (plan : PlanNode) : PlanMetrics :=
  analyzePlanNode plan
    { totalCost := truthyOr plan.totalCost 0
      actualRows := truthyOr plan.actualRows 0
      actualLoops := truthyOr plan.actualLoops 1
      indexScans := 0
      seqScans := 0
      bufferHits := 0
      bufferReads := 0 }

/-! ## Performance measurement (ValidatorAgent.runPerformanceTests) -/

/-- The value returned by one `TigerService.explainAnalyze` call. -/
structure RunResult where
  executionTime : ℚ
  planningTime : ℚ
  plan : PlanNode

/-- A performance sample as produced by
`ValidatorAgent.runPerformanceTests`: on success the mean timings over the
three runs, on failure an error marker with `null` timings. -/
structure Sample where
  query : Str
  executionTime : Option ℚ
  planningTime : Option ℚ
  plan : Option PlanNode
  metrics : Option PlanMetrics
  runs : Option ℕ
  sampleError : Option Str

/-- The first `n` measurement runs for one query, in order; the first
rejected `explainAnalyze` call aborts the whole collection (the JS `try`
wraps the entire loop). -/
def collectRuns (ea : ℕ → Except Str RunResult) : ℕ → Except Str (List RunResult)
  | 0 => .ok []
  | n + 1 => do
    let rs ← collectRuns ea n
    let r ← ea n
    .ok (rs ++ [r])

/-- How many `explainAnalyze` calls the loop issues for one query: it stops
right after the first failing call, so a failure before the third call
means fewer than `3` invocations. -/
def measurementCalls (ea : ℕ → Except Str RunResult) : ℕ :=
  match ea 0 with
  | .error _ => 1
  | .ok _ =>
    match ea 1 with
    | .error _ => 2
    | .ok _ => 3

/-- The per-query body of `ValidatorAgent.runPerformanceTests`: three runs;
on success, mean timings, the last run's plan and its metrics; on any
failure, an error sample with `null` timings. -/
def measureQuery (ea : ℕ → Except Str RunResult) (q : Str) : Sample :=
  match collectRuns ea 3 with
  | .ok runs =>
    { query := q
      executionTime := some ((runs.map (·.executionTime)).sum / runs.length)
      planningTime := some ((runs.map (·.planningTime)).sum / runs.length)
      plan := runs.getLast?.map (·.plan)
      metrics := runs.getLast?.map (fun r => extractPlanMetrics r.plan)
      runs := some runs.length
      sampleError := none }
  | .error e =>
    { query := q
      executionTime := none
      planningTime := none
      plan := none
      metrics := none
      runs := none
      sampleError := some e }

/-- `ValidatorAgent.runPerformanceTests`: one sample per query; a failing
query does not abort the later ones. -/
def runPerformanceTests (ea : Str → ℕ → Except Str RunResult)
    (queries : List Str) : List Sample :=
  queries.map (fun q => measureQuery (ea q) q)

/-! ## Strategy application and index cleanup (ValidatorAgent) -/

/-- One entry of `ValidatorAgent.applyIndexStrategy`'s result list. -/
structure ApplyRes where
  index : Str
  status : Str
  errMsg : Option Str
deriving Repr, DecidableEq

/-- `ValidatorAgent.applyIndexStrategy`: execute each candidate's SQL in
turn; a single failure is recorded and does not stop the remaining
candidates. -/
def applyIndexStrategy (exec : Str → Except Str Unit) (strategy : Strategy) :
    List ApplyRes :=
  strategy.indexes.map (fun idx =>
    match exec idx.sql with
    | .ok _ => ⟨idx.iname, str "created", none⟩
    | .error e => ⟨idx.iname, str "failed", some e⟩)

/-- The DROP statement issued by `ValidatorAgent.cleanupIndexes` for a
sanitized index name. -/
def dropSql (n : Str) : Str := str "DROP INDEX IF EXISTS " ++ n ++ str ";"

/-- The loop body of `ValidatorAgent.cleanupIndexes`: sanitize the
candidate's name with the validator's `sanitizeIdentifier` and execute an
existence-tolerant DROP; a sanitization or execution failure is recorded
per candidate.  The second accumulator component collects every statement
handed to `executeQuery`. -/
def cleanupStep (exec : Str → Except Str Unit)
    (acc : List ApplyRes × List Str) (idx : IndexCandidate) :
    List ApplyRes × List Str :=
  match validatorSanitizeIdentifier idx.iname with
  | .error e => (acc.1 ++ [⟨idx.iname, str "drop_failed", some e⟩], acc.2)
  | .ok n =>
    let s := dropSql n
    match exec s with
    | .ok _ => (acc.1 ++ [⟨idx.iname, str "dropped", none⟩], acc.2 ++ [s])
    | .error e =>
      (acc.1 ++ [⟨idx.iname, str "drop_failed", some e⟩], acc.2 ++ [s])

/-- `ValidatorAgent.cleanupIndexes`. -/
def cleanupIndexes (exec : Str → Except Str Unit) (strategy : Strategy) :
    List ApplyRes × List Str :=
  strategy.indexes.foldl (cleanupStep exec) ([], [])

/-! ## Comparison and recommendation (AgentOrchestrator, part_001) -/

/-- Which strategy a comparison or recommendation refers to. -/
inductive StratLabel where
  | strategyA
  | strategyB
deriving Repr, DecidableEq

/-- The per-strategy summary inside a `ComparisonResult`. -/
structure StrategySummary where
  sname : Str
  avgExecutionTime : ℚ
  queriesCount : ℕ
deriving Repr, DecidableEq

/-- `ComparisonResult` as built by `AgentOrchestrator.compareResults`. -/
structure Comparison where
  strategyA : StrategySummary
  strategyB : StrategySummary
  percentage : ℚ
  faster : StratLabel
  timeSaved : ℚ
deriving Repr, DecidableEq

/-- JS `Math.abs` on a number. -/
def jsAbs (x : ℚ) : ℚ := if x < 0 then -x else x

/-- `resultsX.reduce((sum, r) => sum + r.executionTime, 0)`: JS coerces the
`null` execution time of an errored sample to `0`. -/
def sumExecutionTimes (rs : List Sample) : ℚ :=
  rs.foldl (fun sum r => sum + r.executionTime.getD 0) 0

/-- `AgentOrchestrator.compareResults`: the per-strategy mean divides the
sum over all samples (errored ones contributing `0`) by the full sample
count. -/
def compareResults (nameA nameB : Str) (resultsA resultsB : List Sample) :
    Comparison :=
  let avgTimeA := sumExecutionTimes resultsA / resultsA.length
  let avgTimeB := sumExecutionTimes resultsB / resultsB.length
  let improvement := (avgTimeA - avgTimeB) / avgTimeA * 100
  { strategyA := ⟨nameA, avgTimeA, resultsA.length⟩
    strategyB := ⟨nameB, avgTimeB, resultsB.length⟩
    percentage := improvement
    faster := if 0 < improvement then .strategyB else .strategyA
    timeSaved := jsAbs (avgTimeA - avgTimeB) }

/-- Recommendation actions. -/
inductive RecAction where
  | apply_strategy
  | no_change
deriving Repr, DecidableEq

/-- Recommendation confidence levels. -/
inductive Confidence where
  | low
  | medium
  | high
deriving Repr, DecidableEq

/-- `Recommendation` as built by
`AgentOrchestrator.generateRecommendation` (the `strategy` field is absent,
i.e. `none`, in the `no_change` branch). -/
structure Recommendation where
  action : RecAction
  strategy : Option StratLabel
  confidence : Confidence
deriving Repr, DecidableEq

/-- `AgentOrchestrator.generateRecommendation`. -/
def generateRecommendation (c : Comparison) : Recommendation :=
  if jsAbs c.percentage < 5 then
    { action := .no_change, strategy := none, confidence := .low }
  else
    { action := .apply_strategy
      strategy := some c.faster
      confidence := if 20 < jsAbs c.percentage then .high else .medium }

/-! ## Job orchestration (AgentOrchestrator, src/unnamed/part_001)

`executeOptimization` is embedded as a pure interpreter over an
`OrchCalls` environment that fixes the outcome of every awaited
collaborator call.  The interpreter returns the final job record, the
sequence of job states observable while the task is suspended at an
`await` (the states a concurrent status poll can see), and the sequence of
fork-deletion attempts. -/

/-- The job's `status` values. -/
inductive JobStatus where
  | running
  | generating_strategies
  | creating_forks
  | applying_strategies
  | running_tests
  | analyzing_results
  | completed
  | failed
deriving Repr, DecidableEq

/-- The `job.results` object assembled on success. -/
structure JobResults where
  strategies : Strategies
  forkAName : Str
  forkBName : Str
  performanceA : List Sample
  performanceB : List Sample
  comparison : Comparison
  recommendation : Recommendation

/-- The observable part of an `OptimizationJob` record. -/
structure JobRec where
  status : JobStatus
  results : Option JobResults
  error : Option Str

/-- One fork-deletion attempt: which strategy slot's fork, its name, and
the (always caught) outcome of the `deleteFork` call. -/
inductive Event where
  | deleteAttempt (slot : StratLabel) (forkName : Str) (outcome : Except Str Unit)

/-- The outcomes of the awaited collaborator calls of one job execution.
The four `deleteFork` outcomes cover the at most two attempts per fork. -/
structure OrchCalls where
  genStrategies : Except Str Strategies
  createA : Except Str Fork
  createB : Except Str Fork
  applyA : Except Str (List ApplyRes)
  applyB : Except Str (List ApplyRes)
  testsA : Except Str (List Sample)
  testsB : Except Str (List Sample)
  deleteA1 : Except Str Unit
  deleteA2 : Except Str Unit
  deleteB1 : Except Str Unit
  deleteB2 : Except Str Unit

/-- What one job execution produces. -/
structure OrchOutcome where
  final : JobRec
  snapshots : List JobRec
  events : List Event
  threw : Bool

/-- The fork-cleanup block (it appears twice in the source: the `finally`
block and its copy in the catch handler): attempt `deleteFork` for each
present fork whose `forkName` is truthy; a deletion failure is caught and
does not stop the other attempt. -/
def cleanupEvents (fA fB : Option Fork) (outA outB : Except Str Unit) :
    List Event :=
  (match fA with
   | some f =>
     if f.forkName ≠ [] then [.deleteAttempt .strategyA f.forkName outA] else []
   | none => []) ++
  (match fB with
   | some f =>
     if f.forkName ≠ [] then [.deleteAttempt .strategyB f.forkName outB] else []
   | none => [])

/-- The job states observable during the cleanup block's `await`s: one copy
of the current record per attempted deletion. -/
def cleanupSnaps (j : JobRec) (fA fB : Option Fork) : List JobRec :=
  (match fA with
   | some f => if f.forkName ≠ [] then [j] else []
   | none => []) ++
  (match fB with
   | some f => if f.forkName ≠ [] then [j] else []
   | none => [])

/-- An inner-phase failure after both forks were created: the `finally`
block runs its cleanup while the job still shows the failing phase's
status, then the catch handler marks the job failed and runs the cleanup
copy again, then rethrows. -/
def innerCrash (c : OrchCalls) (forkA forkB : Fork) (pre : List JobRec)
    (statusAt : JobStatus) (e : Str) : OrchOutcome :=
  let atErr : JobRec := ⟨statusAt, none, none⟩
  let fj : JobRec := ⟨.failed, none, some e⟩
  { final := fj
    snapshots := pre ++ cleanupSnaps atErr (some forkA) (some forkB)
      ++ cleanupSnaps fj (some forkA) (some forkB)
    events := cleanupEvents (some forkA) (some forkB) c.deleteA1 c.deleteB1
      ++ cleanupEvents (some forkA) (some forkB) c.deleteA2 c.deleteB2
    threw := true }

/-- `AgentOrchestrator.runABOptimization` + `executeOptimization`: the job
starts `running` (first snapshot), walks the phase statuses, and on any
failure the catch handler records the error and attempts cleanup of
whichever forks exist; on success cleanup runs in the `finally` block with
the job already `completed`. -/
def executeOptimization (c : OrchCalls) : OrchOutcome :=
  let s0 : JobRec := ⟨.running, none, none⟩
  let s1 : JobRec := ⟨.generating_strategies, none, none⟩
  match c.genStrategies with
  | .error e => ⟨⟨.failed, none, some e⟩, [s0, s1], [], true⟩
  | .ok strategies =>
    let s2 : JobRec := ⟨.creating_forks, none, none⟩
    match c.createA with
    | .error e => ⟨⟨.failed, none, some e⟩, [s0, s1, s2], [], true⟩
    | .ok forkA =>
      match c.createB with
      | .error e =>
        let fj : JobRec := ⟨.failed, none, some e⟩
        { final := fj
          snapshots := [s0, s1, s2, s2] ++ cleanupSnaps fj (some forkA) none
          events := cleanupEvents (some forkA) none c.deleteA1 c.deleteB1
          threw := true }
      | .ok forkB =>
        let s3 : JobRec := ⟨.applying_strategies, none, none⟩
        let s4 : JobRec := ⟨.running_tests, none, none⟩
        match c.applyA with
        | .error e =>
          innerCrash c forkA forkB [s0, s1, s2, s2, s3] .applying_strategies e
        | .ok _ =>
          match c.applyB with
          | .error e =>
            innerCrash c forkA forkB [s0, s1, s2, s2, s3, s3]
              .applying_strategies e
          | .ok _ =>
            match c.testsA with
            | .error e =>
              innerCrash c forkA forkB [s0, s1, s2, s2, s3, s3, s4]
                .running_tests e
            | .ok resultsA =>
              match c.testsB with
              | .error e =>
                innerCrash c forkA forkB [s0, s1, s2, s2, s3, s3, s4, s4]
                  .running_tests e
              | .ok resultsB =>
                let comparison := compareResults strategies.strategyA.sname
                  strategies.strategyB.sname resultsA resultsB
                let results : JobResults :=
                  ⟨strategies, forkA.forkName, forkB.forkName, resultsA,
                    resultsB, comparison, generateRecommendation comparison⟩
                let done : JobRec := ⟨.completed, some results, none⟩
                { final := done
                  snapshots := [s0, s1, s2, s2, s3, s3, s4, s4]
                    ++ cleanupSnaps done (some forkA) (some forkB)
                  events := cleanupEvents (some forkA) (some forkB)
                    c.deleteA1 c.deleteB1
                  threw := false }

/-- Number of deletion attempts recorded for one strategy slot's fork. -/
def attemptsOn (out : OrchOutcome) (slot : StratLabel) : ℕ :=
  (out.events.filter (fun ev =>
    match ev with
    | .deleteAttempt s _ _ => s = slot)).length

/-- §3's polling invariant on one job record. -/
def jobInv (j : JobRec) : Prop :=
  (j.results ≠ none ↔ j.status = .completed)
  ∧ (j.error ≠ none ↔ j.status = .failed)
  ∧ ¬(j.results ≠ none ∧ j.error ≠ none)

/-! ## Submission validation (src/server/index.js) -/

/-- The destructive-keyword denylist of `validateQuery`, lowercased for the
case-insensitive regex test. -/
def dangerousKeywords : List Str :=
  [str "drop", str "delete", str "truncate", str "alter", str "grant",
   str "revoke"]

/-- Word-boundary test before position `i`. -/
def boundaryBefore (s : Str) (i : ℕ) : Bool :=
  match (s.take i).getLast? with
  | none => true
  | some c => !isWordChar c

/-- Word-boundary test after position `j`. -/
def boundaryAfter (s : Str) (j : ℕ) : Bool :=
  match (s.drop j).head? with
  | none => true
  | some c => !isWordChar c

/-- Does the word `w` occur at position `i` of `ls` with `\b` boundaries on
both sides? -/
def hasWordAt (ls : Str) (i : ℕ) (w : Str) : Bool :=
  w.isPrefixOf (ls.drop i) && boundaryBefore ls i && boundaryAfter ls (i + w.length)

/-- The regex test `/\b(DROP|DELETE|TRUNCATE|ALTER|GRANT|REVOKE)\b/i`. -/
def containsDangerous (q : Str) : Bool :=
  let lq := toLowerS q
  (List.range (lq.length + 1)).any fun i => dangerousKeywords.any (hasWordAt lq i)

/-- `validateQuery` (src/server/index.js): a (string) query entry is valid
when it is at most 5000 characters and matches no destructive keyword. -/
def validateQuery (q : Str) : Bool :=
  if 5000 < q.length then false else !containsDangerous q

/-- The outcome of the `POST /api/optimize` validation pipeline. -/
inductive SubmitOutcome where
  | invalidQueries
  | tooManyQueries
  | invalidQuery
  | invalidTableName
  | started (jobId : Str)
deriving Repr, DecidableEq

/-- Does the outcome fall in the spec's `QueryValidationError` class? -/
def SubmitOutcome.isQueryValidationError : SubmitOutcome → Bool
  | .invalidQueries => true
  | .tooManyQueries => true
  | .invalidQuery => true
  | _ => false

/-- The `POST /api/optimize` handler's synchronous validation and job
creation (src/server/index.js): empty list, more than 50 entries, a
failing entry, then the table-name class check (skipped for a falsy, i.e.
empty or absent, table name); only after all checks does the job enter the
store.  `jobId` stands for the generated id. -/
def submit (jobsBefore : List Str) (queries : List Str)
    (tableName : Option Str) (jobId : Str) : SubmitOutcome × List Str :=
  if queries = [] then (.invalidQueries, jobsBefore)
  else if 50 < queries.length then (.tooManyQueries, jobsBefore)
  else if queries.any (fun q => !validateQuery q) then (.invalidQuery, jobsBefore)
  else
    let tn := tableName.getD []
    if tn ≠ [] ∧ ¬tn.all isWordChar then (.invalidTableName, jobsBefore)
    else (.started jobId, jobsBefore ++ [jobId])

/-! ## Concrete fixtures used by witnesses and counterexamples -/

/-- A leaf plan node with no annotations. -/
def p0 : PlanNode := .mk none none none none none none []

/-- An oracle whose three measurement runs all succeed with execution times
10, 12, 14 ms. -/
def okOracle : ℕ → Except Str RunResult
  | 0 => .ok ⟨10, 1, p0⟩
  | 1 => .ok ⟨12, 2, p0⟩
  | _ => .ok ⟨14, 3, p0⟩

/-- An oracle whose second measurement run fails. -/
def badOracle : ℕ → Except Str RunResult
  | 0 => .ok ⟨10, 1, p0⟩
  | 1 => .error (str "connection reset")
  | _ => .ok ⟨14, 3, p0⟩

/-- A successful sample with a given mean execution time. -/
def sampleOk (t : ℚ) : Sample :=
  ⟨str "q", some t, some 1, some p0, none, some 3, none⟩

/-- An errored sample: all-runs-failed marker with `null` timings. -/
def sampleErr : Sample :=
  ⟨str "q", none, none, none, none, none, some (str "fail")⟩

/-- An executor that accepts every statement. -/
def okExec : Str → Except Str Unit := fun _ => .ok ()

/-- A strategy whose only candidate is named by a bare reserved keyword. -/
def kwStrategy : Strategy :=
  ⟨str "S", str "", [⟨str "drop", str "", str "btree", [], str ""⟩], 0, str "low"⟩

/-- A strategy with one conventionally named candidate. -/
def plainStrategy : Strategy :=
  ⟨str "S", str "", [⟨str "idx_orders_status", str "", str "btree", [], str ""⟩], 0,
   str "low"⟩

/-- A minimal pair of strategies for orchestrator runs. -/
def wStrategies : Strategies :=
  ⟨plainStrategy, kwStrategy, ⟨str "orders", ⟨[], [], []⟩, 1, str "low"⟩⟩

/-- Orchestrator environment in which every collaborator call succeeds. -/
def cAllOk : OrchCalls :=
  ⟨.ok wStrategies, .ok ⟨str "j-strategy-a", str "conn", true⟩,
   .ok ⟨str "j-strategy-b", str "conn", true⟩, .ok [], .ok [],
   .ok [sampleOk 10], .ok [sampleOk 10], .ok (), .ok (), .ok (), .ok ()⟩

/-- Orchestrator environment in which both forks are created and then the
first strategy application fails. -/
def cCrash : OrchCalls :=
  ⟨.ok wStrategies, .ok ⟨str "j-strategy-a", str "conn", true⟩,
   .ok ⟨str "j-strategy-b", str "conn", true⟩, .error (str "apply failed"),
   .ok [], .ok [sampleOk 10], .ok [sampleOk 10], .ok (), .ok (), .ok (), .ok ()⟩

/-- The end-to-end scenario's query workload. -/
def c8queries : List Str :=
  [str "SELECT * FROM orders WHERE status = 'completed' ORDER BY created_at DESC;"]

/-! ## Claim theorems -/

/-- C10: the claim says the two per-job `create` calls return handles that
address their environments exclusively.  In the code `createFork` is a
demo simulation: it hands out the shared base connection string for every
fork (and flags the handle `isSimulated`), so both handles of a job address
the same database and writes through one are visible through the other;
`getForkConnectionString` equally returns the base connection string for
every fork id. -/
theorem createFork_shared_connection (cfg : TigerConfig) (nA nB fid : Str) :
    (createFork cfg nA).connectionString = cfg.baseConnectionString
    ∧ (createFork cfg nB).connectionString = cfg.baseConnectionString
    ∧ (createFork cfg nA).connectionString = (createFork cfg nB).connectionString
    ∧ (createFork cfg nA).isSimulated = true
    ∧ getForkConnectionString cfg fid = cfg.baseConnectionString := by
  simp [createFork, getForkConnectionString]

/-- C5: the recommendation policy.  `|improvementPercent| < 5` yields
`no_change` with confidence `low` and no named strategy; otherwise the
action is `apply_strategy` naming the faster strategy, with confidence
`high` exactly when `|improvementPercent| > 20` and `medium` otherwise.
In particular a comparison at `4.9` percent yields `no_change`/`low` and
one at `5.1` percent yields `apply_strategy` with `medium`. -/
theorem generateRecommendation_policy (c : Comparison) :
    (generateRecommendation c).action
      = (if jsAbs c.percentage < 5 then RecAction.no_change else RecAction.apply_strategy)
    ∧ (generateRecommendation c).confidence
      = (if jsAbs c.percentage < 5 then Confidence.low
         else if 20 < jsAbs c.percentage then Confidence.high else Confidence.medium)
    ∧ (generateRecommendation c).strategy
      = (if jsAbs c.percentage < 5 then none else some c.faster)
    ∧ generateRecommendation ⟨⟨[], 0, 0⟩, ⟨[], 0, 0⟩, 49/10, .strategyB, 0⟩
      = ⟨.no_change, none, .low⟩
    ∧ generateRecommendation ⟨⟨[], 0, 0⟩, ⟨[], 0, 0⟩, 51/10, .strategyB, 0⟩
      = ⟨.apply_strategy, some .strategyB, .medium⟩ := by
  refine ⟨?_, ?_, ?_, ?_, ?_⟩
  · simp only [generateRecommendation]; split_ifs <;> rfl
  · simp only [generateRecommendation]; split_ifs <;> rfl
  · simp only [generateRecommendation]; split_ifs <;> rfl
  · norm_num [generateRecommendation, jsAbs]
  · norm_num [generateRecommendation, jsAbs]

/-- C7: the claim says an all-runs-failed sample contributes no value to
the per-strategy mean used by the comparison.  In `compareResults` the
errored sample's `null` execution time adds `0` to the numerator but the
sample still counts in the denominator, so with one 10 ms success and one
errored sample the code computes a mean of 5 ms where the spec requires
10 ms (the code's own `generatePerformanceReport` filters errored samples
before averaging, so the spec matches the codebase's intent). -/
theorem compareResults_counts_errored_samples :
    (compareResults (str "A") (str "B") [sampleOk 10, sampleErr]
      [sampleOk 10, sampleOk 10]).strategyA.avgExecutionTime = 5
    ∧ (compareResults (str "A") (str "B") [sampleOk 10, sampleErr]
      [sampleOk 10, sampleOk 10]).strategyB.avgExecutionTime = 10
    ∧ (compareResults (str "A") (str "B") [sampleOk 10, sampleErr]
      [sampleOk 10, sampleOk 10]).strategyA.avgExecutionTime ≠ 10
    ∧ sampleErr.sampleError ≠ none := by
  refine ⟨?_, ?_, ?_, by simp [sampleErr]⟩ <;>
    norm_num [compareResults, sumExecutionTimes, sampleOk, sampleErr]

/-- C8: the end-to-end scenario.  For the single query
`SELECT * FROM orders WHERE status = 'completed' ORDER BY created_at DESC;`
on table `orders`, the Basic strategy holds exactly one candidate indexing
`status`, and the Advanced strategy holds exactly one composite candidate
over `(status, created_at)` plus one partial candidate on `status`
restricted to `status IS NOT NULL`. -/
theorem endToEnd_strategies :
    (generateIndexStrategies c8queries (str "orders")).map
      (fun s => (s.strategyA.indexes.map (fun i => (i.columns, i.itype)),
                 s.strategyB.indexes.map (fun i => (i.columns, i.itype, i.sql))))
    = .ok ([([str "status"], str "btree")],
           [([str "status", str "created_at"], str "btree",
             str "CREATE INDEX idx_orders_composite ON orders (status, created_at);"),
            ([str "status"], str "btree_partial",
             str "CREATE INDEX idx_orders_status_partial ON orders (status) WHERE status IS NOT NULL;")]) := by
  decide

/-- C6 counterexample: the claim says the measurement primitive is run
exactly 3 times and the sample's execution time is the mean over the
successful runs.  With an oracle whose second run fails (first run 10 ms,
third would be 14 ms), the loop stops after 2 calls and the sample carries
no execution time at all, not the successful-runs mean 12. -/
theorem measureQuery_claim_false :
    ¬ (measurementCalls badOracle = 3
       ∧ (measureQuery badOracle (str "q")).executionTime = some 12) := by
  decide

/-- Helper: what a successful tuner sanitization guarantees about its
output. -/
theorem tunerSanitize_ok {s r : Str} (h : tunerSanitizeIdentifier s = .ok r) :
    r = s.filter isWordChar ∧ startsWithDigit r = false
      ∧ isReserved r = false ∧ r ≠ [] := by
  simp only [tunerSanitizeIdentifier] at h
  split_ifs at h <;> simp_all [isReserved]
  rename_i hex
  rcases hex with ⟨x, hx, hpx⟩
  intro h0
  rw [← h] at h0
  have hmem := List.mem_filter.mpr ⟨hx, hpx⟩
  simp [h0] at hmem

/-- Helper: what a successful validator sanitization guarantees about its
output. -/
theorem validatorSanitize_ok {s r : Str}
    (h : validatorSanitizeIdentifier s = .ok r) :
    r = s.filter isWordChar ∧ startsWithDigit r = false ∧ r ≠ [] := by
  simp only [validatorSanitizeIdentifier] at h
  split_ifs at h <;> simp_all
  rename_i hex
  rcases hex with ⟨x, hx, hpx⟩
  intro h0
  rw [← h] at h0
  have hmem := List.mem_filter.mpr ⟨hx, hpx⟩
  simp [h0] at hmem

/-- C4: for every string, a returning `sanitize` yields a string matching
`^[A-Za-z_][A-Za-z0-9_]*$` that is not a reserved keyword, is idempotent on
its own output, and `users; DROP TABLE x` sanitizes to `usersDROPTABLEx`
(so no multi-statement SQL can survive sanitization); on every other path
it raises. -/
theorem sanitizeIdentifier_spec (s r : Str)
    (h : tunerSanitizeIdentifier s = .ok r) :
    matchesIdentRegex r = true
    ∧ isReserved r = false
    ∧ tunerSanitizeIdentifier r = .ok r
    ∧ tunerSanitizeIdentifier (str "users; DROP TABLE x")
        = .ok (str "usersDROPTABLEx") := by
  obtain ⟨hr, hd, hres, hne⟩ := tunerSanitize_ok h
  have hall : ∀ c ∈ r, isWordChar c = true := by
    subst hr; intro c hc; exact (List.mem_filter.mp hc).2
  have hfilter : r.filter isWordChar = r := List.filter_eq_self.mpr hall
  refine ⟨?_, hres, ?_, by decide⟩
  · cases hcase : r with
    | nil => exact absurd hcase hne
    | cons c cs =>
      subst hcase
      have hc : isWordChar c = true := hall c (by simp)
      have hcd : c.isDigit = false := by
        by_contra hx
        simp only [Bool.not_eq_false] at hx
        simp [startsWithDigit, hx] at hd
      have hcs : cs.all isWordChar = true := by
        rw [List.all_eq_true]; intro x hx; exact hall x (by simp [hx])
      simp only [matchesIdentRegex, hcs, Bool.and_true]
      simpa [isWordChar, hcd] using hc
  · have hres2 : toUpperS r ∉ reservedKeywords := by
      simpa [isReserved] using hres
    simp [tunerSanitizeIdentifier, hne, hfilter, hd, hres2]

/-- Witness for `sanitizeIdentifier_spec` at the spec's own example
input. -/
theorem sanitizeIdentifier_spec_witness :
    matchesIdentRegex (str "usersDROPTABLEx") = true
    ∧ isReserved (str "usersDROPTABLEx") = false
    ∧ tunerSanitizeIdentifier (str "usersDROPTABLEx")
        = .ok (str "usersDROPTABLEx")
    ∧ tunerSanitizeIdentifier (str "users; DROP TABLE x")
        = .ok (str "usersDROPTABLEx") :=
  sanitizeIdentifier_spec (str "users; DROP TABLE x") (str "usersDROPTABLEx")
    (by decide)

/-- C6 (amended): for each query the measurement primitive is run up to 3
times, stopping at the first failure.  When all three calls succeed there
are exactly 3 runs and the sample's `executionTime`/`planningTime` are the
arithmetic means over all three runs, with the stored plan (and its
metrics) taken from the most recent run; in particular execution times
[10, 12, 14] yield exactly 12.  When any of the three calls fails, the
query's sample is an error marker with `null` timings (so a partial
failure is not averaged over the successful runs). -/
theorem measureQuery_spec (ea : ℕ → Except Str RunResult) (q : Str)
    (r0 r1 r2 : RunResult) (h0 : ea 0 = .ok r0) (h1 : ea 1 = .ok r1)
    (h2 : ea 2 = .ok r2) :
    measurementCalls ea = 3
    ∧ measureQuery ea q = ⟨q,
        some ((r0.executionTime + r1.executionTime + r2.executionTime) / 3),
        some ((r0.planningTime + r1.planningTime + r2.planningTime) / 3),
        some r2.plan, some (extractPlanMetrics r2.plan), some 3, none⟩
    ∧ (∀ eb : ℕ → Except Str RunResult, ∀ e : Str,
        (eb 0 = .error e
          ∨ (∃ s0, eb 0 = .ok s0 ∧ eb 1 = .error e)
          ∨ (∃ s0 s1, eb 0 = .ok s0 ∧ eb 1 = .ok s1 ∧ eb 2 = .error e)) →
        measureQuery eb q = ⟨q, none, none, none, none, none, some e⟩)
    ∧ (r0.executionTime = 10 → r1.executionTime = 12 → r2.executionTime = 14 →
        (measureQuery ea q).executionTime = some 12) := by
  have hc : collectRuns ea 3 = .ok [r0, r1, r2] := by
    simp only [collectRuns, h0, h1, h2]
    rfl
  have hmain : measureQuery ea q = ⟨q,
      some ((r0.executionTime + r1.executionTime + r2.executionTime) / 3),
      some ((r0.planningTime + r1.planningTime + r2.planningTime) / 3),
      some r2.plan, some (extractPlanMetrics r2.plan), some 3, none⟩ := by
    simp [measureQuery, hc, Sample.mk.injEq]
    constructor <;> ring
  refine ⟨by simp [measurementCalls, h0, h1], hmain, ?_, ?_⟩
  · intro eb e hcase
    have hce : collectRuns eb 3 = .error e := by
      rcases hcase with hb | ⟨s0, hb0, hb⟩ | ⟨s0, s1, hb0, hb1, hb⟩ <;>
        · simp only [collectRuns, *]
          rfl
    simp [measureQuery, hce]
  · intro g0 g1 g2
    rw [hmain, g0, g1, g2]
    norm_num

/-- Witness for `measureQuery_spec`: three successful 10/12/14 ms runs give
an aggregated execution time of exactly 12 ms. -/
theorem measureQuery_spec_witness :
    (measureQuery okOracle (str "q")).executionTime = some 12 :=
  (measureQuery_spec okOracle (str "q") ⟨10, 1, p0⟩ ⟨12, 2, p0⟩ ⟨14, 3, p0⟩
    rfl rfl rfl).2.2.2 rfl rfl rfl

/-- Helper: every DROP statement issued by the cleanup fold interpolates a
validator-sanitized index name (or was already in the accumulator). -/
theorem cleanupFold_mem (exec : Str → Except Str Unit) :
    ∀ (idxs : List IndexCandidate) (acc : List ApplyRes × List Str) (s : Str),
      s ∈ (idxs.foldl (cleanupStep exec) acc).2 →
      s ∈ acc.2 ∨ ∃ i ∈ idxs, ∃ r,
        validatorSanitizeIdentifier i.iname = .ok r ∧ s = dropSql r := by
  intro idxs
  induction idxs with
  | nil => intro acc s hs; exact Or.inl hs
  | cons i is ih =>
    intro acc s hs
    simp only [List.foldl_cons] at hs
    rcases ih (cleanupStep exec acc i) s hs with h | h
    · unfold cleanupStep at h
      cases hv : validatorSanitizeIdentifier i.iname with
      | error e =>
        simp only [hv] at h
        exact Or.inl h
      | ok n =>
        simp only [hv] at h
        cases hx : exec (dropSql n) with
        | ok u =>
          simp only [hx, List.mem_append, List.mem_singleton] at h
          rcases h with h | rfl
          · exact Or.inl h
          · exact Or.inr ⟨i, by simp, n, hv, rfl⟩
        | error e =>
          simp only [hx, List.mem_append, List.mem_singleton] at h
          rcases h with h | rfl
          · exact Or.inl h
          · exact Or.inr ⟨i, by simp, n, hv, rfl⟩
    · obtain ⟨i2, hi2, r, hr, hs2⟩ := h
      exact Or.inr ⟨i2, by simp [hi2], r, hr, hs2⟩

/-- C2 counterexample: the claim says cleanup's DROP INDEX identifiers pass
the §4.2 sanitization (which rejects reserved keywords).  A candidate named
`drop` is rejected by the §4.2 sanitization, yet `cleanupIndexes` happily
issues `DROP INDEX IF EXISTS drop;` because the validator's sanitizer has
no reserved-keyword check. -/
theorem cleanup_keyword_counterexample :
    (cleanupIndexes okExec kwStrategy).2 = [str "DROP INDEX IF EXISTS drop;"]
    ∧ tunerSanitizeIdentifier (str "drop")
        = .error (str "Cannot use SQL reserved keyword as identifier")
    ∧ isReserved (str "drop") = true := by decide

/-- C2 (amended): every index name interpolated into a cleanup DROP INDEX
statement passes the validator's sanitization — characters outside
`[A-Za-z0-9_]` are stripped and an empty or digit-leading result raises —
but, unlike the §4.2 sanitization used for index creation, reserved
keywords are not rejected (`drop` is accepted verbatim). -/
theorem cleanup_sanitization (exec : Str → Except Str Unit) (strat : Strategy)
    (s : Str) (hs : s ∈ (cleanupIndexes exec strat).2) :
    (∃ i ∈ strat.indexes, ∃ r, validatorSanitizeIdentifier i.iname = .ok r
       ∧ r = i.iname.filter isWordChar ∧ startsWithDigit r = false ∧ r ≠ []
       ∧ s = dropSql r)
    ∧ validatorSanitizeIdentifier (str "drop") = .ok (str "drop") := by
  refine ⟨?_, by decide⟩
  rcases cleanupFold_mem exec strat.indexes ([], []) s hs with h | h
  · simp at h
  · obtain ⟨i, hi, r, hr, rfl⟩ := h
    obtain ⟨h1, h2, h3⟩ := validatorSanitize_ok hr
    exact ⟨i, hi, r, hr, h1, h2, h3, rfl⟩

/-- Witness for `cleanup_sanitization` on a conventionally named
candidate. -/
theorem cleanup_sanitization_witness :
    (∃ i ∈ plainStrategy.indexes, ∃ r,
       validatorSanitizeIdentifier i.iname = .ok r
       ∧ r = i.iname.filter isWordChar ∧ startsWithDigit r = false ∧ r ≠ []
       ∧ str "DROP INDEX IF EXISTS idx_orders_status;" = dropSql r)
    ∧ validatorSanitizeIdentifier (str "drop") = .ok (str "drop") :=
  cleanup_sanitization okExec plainStrategy
    (str "DROP INDEX IF EXISTS idx_orders_status;") (by decide)

/-- Helper: a query entry fails validation exactly when it is over-long or
matches the destructive-keyword denylist. -/
theorem validateQuery_false_iff (q : Str) :
    (!validateQuery q) = true ↔ (5000 < q.length ∨ containsDangerous q = true) := by
  unfold validateQuery
  split_ifs with h <;> simp [h]

/-- Helper: the handler's table-name rejection condition in terms of the
claim's "contains a character outside `[A-Za-z0-9_]`". -/
theorem tableBad_iff (tableName : Option Str) :
    (tableName.getD [] ≠ [] ∧ ¬(tableName.getD []).all isWordChar)
      ↔ ∃ s, tableName = some s ∧ ∃ c ∈ s, isWordChar c = false := by
  cases tableName with
  | none => simp
  | some s =>
    simp only [Option.getD_some, Option.some.injEq]
    constructor
    · rintro ⟨-, hall⟩
      refine ⟨s, rfl, ?_⟩
      simp only [List.all_eq_true, not_forall] at hall
      obtain ⟨c, hc, hcf⟩ := hall
      exact ⟨c, hc, by simpa using hcf⟩
    · rintro ⟨s2, hs2, c, hc, hcf⟩
      subst hs2
      constructor
      · intro h0; subst h0; simp at hc
      · simp only [List.all_eq_true, not_forall]
        exact ⟨c, hc, by simp [hcf]⟩

/-- C9: submission fails with a `QueryValidationError` code exactly when
the query list is empty, exceeds 50 entries, or contains an entry longer
than 5000 characters or matching the destructive-keyword denylist; when the
queries are acceptable it fails with the invalid-table-name code exactly
when the (truthy) table name contains a character outside `[A-Za-z0-9_]`;
otherwise it returns the job id.  The job store is untouched on every
failure and gains exactly the new job id on success. -/
theorem submit_validation (jobs queries : List Str) (tableName : Option Str)
    (jobId : Str) :
    ((submit jobs queries tableName jobId).1.isQueryValidationError = true
       ↔ (queries = [] ∨ 50 < queries.length
           ∨ ∃ q ∈ queries, 5000 < q.length ∨ containsDangerous q = true))
    ∧ (¬(queries = [] ∨ 50 < queries.length
           ∨ ∃ q ∈ queries, 5000 < q.length ∨ containsDangerous q = true) →
        ((submit jobs queries tableName jobId).1 = .invalidTableName
          ↔ ∃ s, tableName = some s ∧ ∃ c ∈ s, isWordChar c = false))
    ∧ ((submit jobs queries tableName jobId).1 = .started jobId
        ↔ (¬(queries = [] ∨ 50 < queries.length
              ∨ ∃ q ∈ queries, 5000 < q.length ∨ containsDangerous q = true)
           ∧ ¬∃ s, tableName = some s ∧ ∃ c ∈ s, isWordChar c = false))
    ∧ ((submit jobs queries tableName jobId).1 ≠ .started jobId →
        (submit jobs queries tableName jobId).2 = jobs)
    ∧ ((submit jobs queries tableName jobId).1 = .started jobId →
        (submit jobs queries tableName jobId).2 = jobs ++ [jobId]) := by
  have hq : (queries.any (fun q => !validateQuery q) = true)
      ↔ ∃ q ∈ queries, 5000 < q.length ∨ containsDangerous q = true := by
    simp only [List.any_eq_true, validateQuery_false_iff]
  have ht := tableBad_iff tableName
  simp only [submit]
  split_ifs with h1 h2 h3 h4
  · refine ⟨by simp [SubmitOutcome.isQueryValidationError, h1], ?_, ?_,
      fun _ => rfl, ?_⟩
    · intro hn; exact absurd (Or.inl h1) hn
    · constructor
      · intro h; simp at h
      · rintro ⟨hn, -⟩; exact absurd (Or.inl h1) hn
    · intro h; simp at h
  · refine ⟨by simp [SubmitOutcome.isQueryValidationError, h2], ?_, ?_,
      fun _ => rfl, ?_⟩
    · intro hn; exact absurd (Or.inr (Or.inl h2)) hn
    · constructor
      · intro h; simp at h
      · rintro ⟨hn, -⟩; exact absurd (Or.inr (Or.inl h2)) hn
    · intro h; simp at h
  · refine ⟨by simp [SubmitOutcome.isQueryValidationError, hq.mp h3], ?_, ?_,
      fun _ => rfl, ?_⟩
    · intro hn; exact absurd (Or.inr (Or.inr (hq.mp h3))) hn
    · constructor
      · intro h; simp at h
      · rintro ⟨hn, -⟩; exact absurd (Or.inr (Or.inr (hq.mp h3))) hn
    · intro h; simp at h
  · have hne : ¬∃ q ∈ queries, 5000 < q.length ∨ containsDangerous q = true :=
      fun hx => h3 (hq.mpr hx)
    refine ⟨by simp [SubmitOutcome.isQueryValidationError, h1, h2, hne], ?_, ?_,
      fun _ => rfl, ?_⟩
    · intro _; exact ⟨fun _ => ht.mp h4, fun _ => rfl⟩
    · constructor
      · intro h; simp at h
      · rintro ⟨-, hnt⟩; exact absurd (ht.mp h4) hnt
    · intro h; simp at h
  · have hne : ¬∃ q ∈ queries, 5000 < q.length ∨ containsDangerous q = true :=
      fun hx => h3 (hq.mpr hx)
    have hnt : ¬∃ s, tableName = some s ∧ ∃ c ∈ s, isWordChar c = false :=
      fun hx => h4 (ht.mpr hx)
    have hcond : ¬(queries = [] ∨ 50 < queries.length
        ∨ ∃ q ∈ queries, 5000 < q.length ∨ containsDangerous q = true) := by
      rintro (h | h | h)
      · exact h1 h
      · exact h2 h
      · exact hne h
    refine ⟨by simp [SubmitOutcome.isQueryValidationError, h1, h2, hne], ?_, ?_,
      ?_, fun _ => rfl⟩
    · intro _
      constructor
      · intro h; simp at h
      · intro hx; exact absurd hx hnt
    · exact ⟨fun _ => ⟨hcond, hnt⟩, fun _ => rfl⟩
    · intro h; exact absurd rfl h

/-- Witness for `submit_validation`: a single short safe query with no
table name is accepted and the job is created. -/
theorem submit_validation_witness :
    (submit [] [str "SELECT 1"] none (str "job1")).1 = .started (str "job1") :=
  ((submit_validation [] [str "SELECT 1"] none (str "job1")).2.2.1).mpr
    ⟨by decide, by simp⟩

/-- Helper: every snapshot taken inside the cleanup block equals the job
record at that moment. -/
theorem mem_cleanupSnaps_eq {j x : JobRec} {fA fB : Option Fork}
    (hx : x ∈ cleanupSnaps j fA fB) : x = j := by
  rcases fA with _ | f <;> rcases fB with _ | g <;>
    simp only [cleanupSnaps] at hx <;>
    (try split_ifs at hx) <;> simp_all

/-- C3: at every point where a status poll can observe the job — each
suspension of the orchestration task and its terminal state — the record
satisfies the invariant: `results` is present exactly when the status is
`completed`, `error` is present exactly when it is `failed`, and never
both. -/
theorem job_state_invariant (c : OrchCalls) :
    jobInv (executeOptimization c).final
    ∧ ∀ j ∈ (executeOptimization c).snapshots, jobInv j := by
  obtain ⟨g, ca, cb, aa, ab, ta, tb, d1, d2, d3, d4⟩ := c
  have hcs : ∀ (j0 : JobRec) (fA fB : Option Fork), jobInv j0 →
      ∀ j ∈ cleanupSnaps j0 fA fB, jobInv j := by
    intro j0 fA fB hj0 j hj
    rw [mem_cleanupSnaps_eq hj]; exact hj0
  cases g with
  | error e =>
    refine ⟨by simp [executeOptimization, jobInv], ?_⟩
    intro j hj
    simp only [executeOptimization, List.mem_cons, List.not_mem_nil,
      or_false] at hj
    rcases hj with rfl | rfl <;> simp [jobInv]
  | ok strategies =>
    cases ca with
    | error e =>
      refine ⟨by simp [executeOptimization, jobInv], ?_⟩
      intro j hj
      simp only [executeOptimization, List.mem_cons, List.not_mem_nil,
        or_false] at hj
      rcases hj with rfl | rfl | rfl <;> simp [jobInv]
    | ok forkA =>
      cases cb with
      | error e =>
        refine ⟨by simp [executeOptimization, jobInv], ?_⟩
        intro j hj
        simp only [executeOptimization, List.mem_append, List.mem_cons,
          List.not_mem_nil, or_false] at hj
        rcases hj with (rfl | rfl | rfl | rfl) | hj
        · simp [jobInv]
        · simp [jobInv]
        · simp [jobInv]
        · simp [jobInv]
        · exact hcs _ _ _ (by simp [jobInv]) j hj
      | ok forkB =>
        cases aa with
        | error e =>
          refine ⟨by simp [executeOptimization, innerCrash, jobInv], ?_⟩
          intro j hj
          simp only [executeOptimization, innerCrash, List.mem_append,
            List.mem_cons, List.not_mem_nil, or_false] at hj
          rcases hj with ((rfl | rfl | rfl | rfl | rfl) | hj) | hj
          · simp [jobInv]
          · simp [jobInv]
          · simp [jobInv]
          · simp [jobInv]
          · simp [jobInv]
          · exact hcs _ _ _ (by simp [jobInv]) j hj
          · exact hcs _ _ _ (by simp [jobInv]) j hj
        | ok ra =>
          cases ab with
          | error e =>
            refine ⟨by simp [executeOptimization, innerCrash, jobInv], ?_⟩
            intro j hj
            simp only [executeOptimization, innerCrash, List.mem_append,
              List.mem_cons, List.not_mem_nil, or_false] at hj
            rcases hj with ((rfl | rfl | rfl | rfl | rfl | rfl) | hj) | hj
            · simp [jobInv]
            · simp [jobInv]
            · simp [jobInv]
            · simp [jobInv]
            · simp [jobInv]
            · simp [jobInv]
            · exact hcs _ _ _ (by simp [jobInv]) j hj
            · exact hcs _ _ _ (by simp [jobInv]) j hj
          | ok rb =>
            cases ta with
            | error e =>
              refine ⟨by simp [executeOptimization, innerCrash, jobInv], ?_⟩
              intro j hj
              simp only [executeOptimization, innerCrash, List.mem_append,
                List.mem_cons, List.not_mem_nil, or_false] at hj
              rcases hj with ((rfl | rfl | rfl | rfl | rfl | rfl | rfl) | hj) | hj
              · simp [jobInv]
              · simp [jobInv]
              · simp [jobInv]
              · simp [jobInv]
              · simp [jobInv]
              · simp [jobInv]
              · simp [jobInv]
              · exact hcs _ _ _ (by simp [jobInv]) j hj
              · exact hcs _ _ _ (by simp [jobInv]) j hj
            | ok resultsA =>
              cases tb with
              | error e =>
                refine ⟨by simp [executeOptimization, innerCrash, jobInv], ?_⟩
                intro j hj
                simp only [executeOptimization, innerCrash, List.mem_append,
                  List.mem_cons, List.not_mem_nil, or_false] at hj
                rcases hj with
                  ((rfl | rfl | rfl | rfl | rfl | rfl | rfl | rfl) | hj) | hj
                · simp [jobInv]
                · simp [jobInv]
                · simp [jobInv]
                · simp [jobInv]
                · simp [jobInv]
                · simp [jobInv]
                · simp [jobInv]
                · simp [jobInv]
                · exact hcs _ _ _ (by simp [jobInv]) j hj
                · exact hcs _ _ _ (by simp [jobInv]) j hj
              | ok resultsB =>
                refine ⟨by simp [executeOptimization, jobInv], ?_⟩
                intro j hj
                simp only [executeOptimization, List.mem_append,
                  List.mem_cons, List.not_mem_nil, or_false] at hj
                rcases hj with
                  (rfl | rfl | rfl | rfl | rfl | rfl | rfl | rfl) | hj
                · simp [jobInv]
                · simp [jobInv]
                · simp [jobInv]
                · simp [jobInv]
                · simp [jobInv]
                · simp [jobInv]
                · simp [jobInv]
                · simp [jobInv]
                · exact hcs _ _ _ (by simp [jobInv]) j hj

/-- Witness for `job_state_invariant`: the initial `running` snapshot of an
all-successful execution satisfies the invariant. -/
theorem job_state_invariant_witness :
    jobInv { status := .running, results := none, error := none } :=
  (job_state_invariant cAllOk).2 ⟨.running, none, none⟩
    (by simp [executeOptimization, cAllOk])

/-- Did an awaited call succeed? -/
def exceptOk {α : Type} : Except Str α → Bool
  | .ok _ => true
  | .error _ => false

/-- C1 counterexample: the claim says each successfully created
environment's deletion is attempted exactly once on every exit path.  On
the path where both forks are created and the first strategy application
then fails, the `finally` block attempts both deletions and the catch
handler attempts both again: two attempts per fork, not one. -/
theorem cleanup_exactly_once_refuted :
    attemptsOn (executeOptimization cCrash) .strategyA = 2
    ∧ attemptsOn (executeOptimization cCrash) .strategyB = 2
    ∧ ¬(attemptsOn (executeOptimization cCrash) .strategyA = 1
        ∧ attemptsOn (executeOptimization cCrash) .strategyB = 1) := by
  decide

/-- C1 (amended): the number of deletion attempts per fork as a function of
the execution path.  A fork that was never created (strategy generation or
its own `createFork` failed) gets no attempt; a created fork with a truthy
name gets exactly one attempt when the other creation fails or when all
later phases succeed, and exactly two attempts (the `finally` block's and
the catch handler's) when an apply/measure phase fails after both
creations.  The counts do not depend on the `deleteFork` outcomes, so one
deletion's failure never suppresses the other's attempt, and they do not
depend on the job's terminal status beyond the path taken. -/
theorem cleanup_attempts_count (c : OrchCalls) :
    attemptsOn (executeOptimization c) .strategyA =
      (match c.genStrategies, c.createA, c.createB with
       | .ok _, .ok fA, .ok _ =>
         if fA.forkName = [] then 0
         else if (exceptOk c.applyA && exceptOk c.applyB
             && exceptOk c.testsA && exceptOk c.testsB) = true then 1 else 2
       | .ok _, .ok fA, .error _ => if fA.forkName = [] then 0 else 1
       | _, _, _ => 0)
    ∧ attemptsOn (executeOptimization c) .strategyB =
      (match c.genStrategies, c.createA, c.createB with
       | .ok _, .ok _, .ok fB =>
         if fB.forkName = [] then 0
         else if (exceptOk c.applyA && exceptOk c.applyB
             && exceptOk c.testsA && exceptOk c.testsB) = true then 1 else 2
       | _, _, _ => 0) := by
  obtain ⟨g, ca, cb, aa, ab, ta, tb, d1, d2, d3, d4⟩ := c
  cases g <;> cases ca <;> cases cb <;> cases aa <;> cases ab <;>
    cases ta <;> cases tb <;>
    simp [executeOptimization, innerCrash, attemptsOn, cleanupEvents,
      exceptOk, List.filter_append] <;>
    split_ifs <;>
    simp_all

end ABOpt
